import Mathlib

/-!
# The APNS connection pipeline (connection.go)

A shallow embedding of the reader's frame decoding and of the event loop of
`Connection.limbo`, followed by theorems about them.

Modelling conventions.

* A Go channel used as a FIFO queue by a single goroutine is a `List`, front
  of the queue first.
* `for pn := range ch` over a channel that is never closed takes the queued
  values one by one and then waits forever on the empty channel.  A handler
  that ends up waiting this way is recorded with `blocked := true`; a blocked
  tracker handles no further event.
* A call `conn.Enqueue(&pn)` is recorded in the `enqueued` trace with its
  argument, the address of the range variable `pn` of the loop.  That variable
  is one variable for all the iterations of the loop (the semantics of `for`
  the code was written for).  The goroutine Enqueue launches reads `*pn` when
  it runs and then sends the value on `conn.queue`; `requeueRun` interleaves
  the iterations of the loop with the reads and the sends of those goroutines
  under an explicit schedule.
* Sends on the `errors` channel are recorded in the `errors` trace.
* `uint8` and `uint32` values are natural numbers.
-/

namespace Apns

/-! ## Data model -/

/-- Modelled from the spec: the `PushNotification` struct is declared outside
connection.go.  The code here reads only its `Identifier` field; the spec
lists an identifier, opaque payload bytes and a destination token. -/
structure PushNotification where
  Identifier : Nat
  payload : List Nat
  token : List Nat
deriving DecidableEq, Repr

/-- The Go struct `Response`: `Status uint8`, `Identifier uint32`. -/
structure Response where
  Status : Nat
  Identifier : Nat
deriving DecidableEq, Repr

/-- The Go function `newResponse`: `new(Response)`, the zero value. -/
def newResponse : Response := ⟨0, 0⟩

/-- The Go struct `BadPushNotification`: a notification with a status. -/
structure BadPushNotification where
  toPushNotification : PushNotification
  Status : Nat
deriving DecidableEq, Repr

/-! ## Reader -/

/-- The Go call `binary.BigEndian.Uint32(b)` on the first four bytes of `b`:
`uint32(b[3]) | uint32(b[2])<<8 | uint32(b[1])<<16 | uint32(b[0])<<24`. -/
def bigEndianUint32 (b : List Nat) : Nat :=
  (b.getD 3 0 ||| (b.getD 2 0 <<< 8) % 2 ^ 32 ||| (b.getD 1 0 <<< 16) % 2 ^ 32
    ||| (b.getD 0 0 <<< 24) % 2 ^ 32) % 2 ^ 32

/-- Lines 86-88 of `reader`: the Response built from the 6-byte buffer. -/
def decodeResponse (buffer : List Nat) : Response :=
  let resp := newResponse
  let resp := { resp with Identifier := bigEndianUint32 (buffer.drop 2 |>.take 4) }
  let resp := { resp with Status := buffer.getD 1 0 % 256 }
  resp

/-- What one call `conn.conn.Read(buffer)` returns: bytes copied to the front
of the buffer, or an error. -/
inductive ReadResult where
  | data (bytes : List Nat)
  | err
deriving DecidableEq, Repr

/-- The observable effects of a run of `reader`. -/
structure ReaderState where
  buffer : List Nat
  responses : List Response
  connClosed : Bool
  responsesClosed : Bool
  returned : Bool
deriving DecidableEq, Repr

/-- The state of `reader` before its loop: `buffer := make([]byte, 6)`. -/
def ReaderState.init : ReaderState :=
  { buffer := List.replicate 6 0, responses := [], connClosed := false,
    responsesClosed := false, returned := false }

/-- One iteration of the loop of `reader`.  The byte count returned by `Read`
is ignored by the code, so a short read leaves the old bytes in the rest of
the buffer. -/
def readerStep (st : ReaderState) (rr : ReadResult) : ReaderState :=
  if st.returned then st else
  match rr with
  | ReadResult.err => { st with connClosed := true, returned := true }
  | ReadResult.data bytes =>
    let buffer := bytes.take 6 ++ st.buffer.drop (bytes.take 6).length
    { st with buffer := buffer, responses := st.responses ++ [decodeResponse buffer] }

/-- The loop of `reader` over the successive results of `Read`. -/
def reader (reads : List ReadResult) : ReaderState :=
  reads.foldl readerStep ReaderState.init

/-! ## Limbo tracker -/

/-- A pointer to a PushNotification variable.  connection.go takes one address,
`&pn` at line 142: that of the range variable of the loop at line 129. -/
inductive Ptr where
  | rangeVar
deriving DecidableEq, Repr

/-- The Go method `Enqueue` (lines 35-39) as the calling goroutine sees it: it
launches a goroutine that holds the pointer it was handed, and returns.
`launched` lists the pointers of the goroutines launched so far. -/
def Enqueue (launched : List Ptr) (pn : Ptr) : List Ptr :=
  launched ++ [pn]

/-- The state of the goroutine `limbo`, with the traces of its effects;
`enqueued` holds the arguments of its calls of `conn.Enqueue`, in call
order. -/
structure LimboState where
  limbo : List PushNotification
  timeNextNotification : Bool
  pending : List Response
  scheduled : List Response
  enqueued : List Ptr
  errors : List BadPushNotification
  blocked : Bool
deriving DecidableEq, Repr

/-- The state of `limbo` when its loop starts (lines 94-96). -/
def LimboState.init : LimboState :=
  { limbo := [], timeNextNotification := true, pending := [], scheduled := [],
    enqueued := [], errors := [], blocked := false }

/-- The `case pn := <-sent` handler (lines 99-111).  `sentBufferSize` is the
capacity of the `limbo` channel (the package variable `SentBufferSize`): the
send `limbo <- pn` on a full channel never completes, since this goroutine is
its only receiver. -/
def handleSent (sentBufferSize : Nat) (st : LimboState) (pn : PushNotification) :
    LimboState :=
  if sentBufferSize ≤ st.limbo.length then { st with blocked := true } else
  let st := { st with limbo := st.limbo ++ [pn] }
  if st.timeNextNotification then
    let successResp := newResponse
    let successResp := { successResp with Identifier := pn.Identifier }
    { st with pending := st.pending ++ [successResp],
              scheduled := st.scheduled ++ [successResp],
              timeNextNotification := false }
  else st

/-- The loop of the `resp.Status == 0` case (lines 120-126): receive from
`limbo` until a notification with the identifier is received.  Returns what is
left in the channel and whether the loop is still waiting on it. -/
def dropUntil (identifier : Nat) : List PushNotification → List PushNotification × Bool
  | [] => ([], true)
  | pn :: rest => if pn.Identifier = identifier then (rest, false) else dropUntil identifier rest

/-- The state of the loop of the `default` case (lines 128-144): what is left
in the `limbo` channel, the range variable `pn` (`none` before the first
receive), `hit`, the arguments of the Enqueue calls made and the sends on
`errors` made so far, and whether the `range` is waiting on the empty
channel. -/
structure RequeueState where
  limbo : List PushNotification
  pn : Option PushNotification
  hit : Bool
  enqueued : List Ptr
  errors : List BadPushNotification
  waiting : Bool
deriving DecidableEq, Repr

/-- The state of the loop when the `default` case is entered: `hit := false`
(line 128) and nothing received yet. -/
def RequeueState.start (limbo : List PushNotification) : RequeueState :=
  { limbo := limbo, pn := none, hit := false, enqueued := [], errors := [], waiting := false }

/-- The `switch` of lines 130-143 on the notification `x` the range variable
holds.  The `resp.Status != 10` branch holds a comment only; the third case
calls `conn.Enqueue(&pn)`. -/
def requeueSwitch (resp : Response) (s : RequeueState) (x : PushNotification) : RequeueState :=
  if x.Identifier ≠ resp.Identifier ∧ s.hit = false then s
  else if x.Identifier = resp.Identifier then
    let s := { s with hit := true }
    if resp.Status ≠ 10 then s else s
  else if x.Identifier ≠ resp.Identifier ∧ s.hit = true then
    { s with enqueued := Enqueue s.enqueued Ptr.rangeVar }
  else s

/-- One iteration of `for pn := range limbo` (line 129): on the empty channel
the loop waits (the channel is never closed); otherwise the front of the
channel is received into `pn` and the body runs. -/
def requeueIter (resp : Response) (s : RequeueState) : RequeueState :=
  match s.limbo with
  | [] => { s with waiting := true }
  | x :: rest => requeueSwitch resp { s with limbo := rest, pn := some x } x

/-- The loop of the `default` case run by the tracker until it waits on the
empty channel: one iteration for each queued notification and the one that
finds the channel empty. -/
def requeueLoop (resp : Response) (s : RequeueState) : RequeueState :=
  (requeueIter resp)^[s.limbo.length + 1] s

/-- The `switch` of the `case resp, ok := <-responses` handler (lines 117-145). -/
def handleResponse (st : LimboState) (resp : Response) : LimboState :=
  if resp.Status = 0 then
    let r := dropUntil resp.Identifier st.limbo
    { st with limbo := r.1, blocked := r.2 }
  else
    let r := requeueLoop resp (RequeueState.start st.limbo)
    { st with limbo := r.limbo, enqueued := st.enqueued ++ r.enqueued,
              errors := st.errors ++ r.errors, blocked := r.waiting }

/-- What the pointer points to while the loop is in state `s`. -/
def deref (s : RequeueState) : Ptr → Option PushNotification
  | Ptr.rangeVar => s.pn

/-- One step of a run of the `default` case together with the goroutines its
Enqueue calls launch: the tracker takes the next iteration of its loop; or a
launched goroutine that has not run yet evaluates `*pn` (line 37); or the
goroutine holding the value at position `i` among those read and not yet sent
completes its send on `conn.queue`. -/
inductive Turn where
  | tracker
  | read
  | send (i : Nat)
deriving DecidableEq, Repr

/-- The loop of the `default` case and the goroutines of its Enqueue calls:
`started` of the launched goroutines have evaluated `*pn`, `held` are the
values read and not yet sent, `queue` the values sent on `conn.queue`, in
order. -/
structure Requeueing where
  loop : RequeueState
  started : Nat
  held : List PushNotification
  queue : List PushNotification
deriving DecidableEq, Repr

/-- The `default` case entered with the given buffer and no goroutine yet. -/
def Requeueing.start (limbo : List PushNotification) : Requeueing :=
  { loop := RequeueState.start limbo, started := 0, held := [], queue := [] }

/-- The effect of one turn.  The launched goroutines all hold the same pointer,
so which of the not yet started ones reads is immaterial. -/
def requeueTurn (resp : Response) (c : Requeueing) : Turn → Requeueing
  | Turn.tracker => { c with loop := requeueIter resp c.loop }
  | Turn.read =>
    match c.loop.enqueued.get? c.started with
    | none => c
    | some p =>
      match deref c.loop p with
      | none => c
      | some v => { c with started := c.started + 1, held := c.held ++ [v] }
  | Turn.send i =>
    match c.held.get? i with
    | none => c
    | some v => { c with held := c.held.eraseIdx i, queue := c.queue ++ [v] }

/-- A run of the `default` case for `resp` on the given buffer under a
schedule. -/
def requeueRun (resp : Response) (limbo : List PushNotification) (turns : List Turn) :
    Requeueing :=
  turns.foldl (requeueTurn resp) (Requeueing.start limbo)

/-- The schedule in which the tracker goes through a buffer of `n`
notifications and is left waiting, and then the `m` goroutines it launched run
one after the other. -/
def afterLoop (n m : Nat) : List Turn :=
  List.replicate (n + 1) Turn.tracker ++ List.replicate m Turn.read
    ++ List.replicate m (Turn.send 0)

/-- The schedule in which every goroutine runs to its end as soon as it is
launched, before the loop receives again. -/
def atOnce (n : Nat) : List Turn :=
  (List.replicate n [Turn.tracker, Turn.read, Turn.send 0]).flatten ++ [Turn.tracker]

/-- The `case resp, ok := <-responses` handler when the receive reports the
channel closed (lines 112-116): the body of `if !ok` is empty and `resp` is
the zero Response, which the `switch` then handles. -/
def handleClosed (st : LimboState) : LimboState :=
  handleResponse st newResponse

/-- The events the `select` of `limbo` waits for.  `timeout i` is the receive,
from `responses`, of the synthetic response at position `i` among those
scheduled and not yet received. -/
inductive Event where
  | sent (pn : PushNotification)
  | response (resp : Response)
  | closed
  | timeout (i : Nat)
  | tick
deriving DecidableEq, Repr

/-- One iteration of the `for { select { ... } }` loop of `limbo`. -/
def step (sentBufferSize : Nat) (st : LimboState) (ev : Event) : LimboState :=
  if st.blocked then st else
  match ev with
  | Event.sent pn => handleSent sentBufferSize st pn
  | Event.response resp => handleResponse st resp
  | Event.closed => handleClosed st
  | Event.timeout i =>
    match st.pending.get? i with
    | none => st
    | some resp => handleResponse { st with pending := st.pending.eraseIdx i } resp
  | Event.tick => { st with timeNextNotification := true }

/-- The event loop of `limbo` over a sequence of events. -/
def run (sentBufferSize : Nat) (st : LimboState) (evs : List Event) : LimboState :=
  evs.foldl (step sentBufferSize) st

/-- A notification carrying only an identifier. -/
def pnOf (identifier : Nat) : PushNotification := ⟨identifier, [], []⟩

/-- A tracker state holding the given in-flight buffer and no trace. -/
def LimboState.ofBuffer (buf : List PushNotification) : LimboState :=
  { LimboState.init with limbo := buf }

/-- The identifiers of a buffer, front first. -/
def identifiers (buf : List PushNotification) : List Nat :=
  buf.map PushNotification.Identifier

/-- The notification a sent event carries. -/
def Event.sentOf? : Event → Option PushNotification
  | Event.sent pn => some pn
  | _ => none

/-- The notifications of the sent events of a run, in order. -/
def sentNotifications (evs : List Event) : List PushNotification :=
  evs.filterMap Event.sentOf?

/-- Whether the event is a receive from the reader's side of `responses`: a
frame or the closing of the channel. -/
def Event.isFrame : Event → Bool
  | Event.response _ => true
  | Event.closed => true
  | _ => false

/-- The relation kept by a live tracker that receives only sent events, ticks
and its own synthetic responses, between its state and the notifications sent
so far: the buffer holds the notifications sent after the one the last
scheduled timeout names, preceded, while that timeout is pending, by that
notification and some of the ones sent before it. -/
def TimeoutInv (st : LimboState) (hist : List PushNotification) : Prop :=
  (∀ r ∈ st.pending, r.Status = 0) ∧
  ((hist = [] ∧ st.limbo = [] ∧ st.pending = [] ∧ st.scheduled = []
      ∧ st.timeNextNotification = true) ∨
    ∃ H L U, hist = H ++ L :: U
      ∧ st.scheduled.getLast? = some ⟨0, L.Identifier⟩
      ∧ (∀ r ∈ st.pending, r.Identifier ∈ identifiers (H ++ [L]))
      ∧ (st.limbo = U ∨
          ∃ X, X <:+ H ∧ st.limbo = X ++ L :: U ∧ (⟨0, L.Identifier⟩ : Response) ∈ st.pending))

/-- Lines 106-107 of `limbo`: the Response the timer goroutine builds for a
notification with the given identifier (`newResponse` with its Identifier
set; the Status stays 0). -/
def timeoutResponse (identifier : Nat) : Response :=
  let successResp := newResponse
  { successResp with Identifier := identifier }

/-- The relation between the buffer and the notifications sent so far that
every event keeps: the buffer is a contiguous run of them, and their tail
while the tracker is not left waiting. -/
def OrderInv (st : LimboState) (hist : List PushNotification) : Prop :=
  st.limbo <:+: hist ∧ (st.blocked = false → st.limbo <:+ hist)

/-! ## Sender -/

/-- The observable effects of a run of `sender`: the notifications received
from `conn.queue` and the ones published on `sent`. -/
structure SenderState where
  taken : List PushNotification
  sent : List PushNotification
  returned : Bool
deriving DecidableEq, Repr

/-- The state of `sender` before its loop. -/
def SenderState.init : SenderState := { taken := [], sent := [], returned := false }

/-- One iteration of the loop of `sender` (lines 63-74) on the result of
`pn, ok := <-conn.queue`; `none` is a receive with `ok == false`.  The `else`
branch holds comments only. -/
def senderStep (st : SenderState) (recv : Option PushNotification) : SenderState :=
  if st.returned then st else
  match recv with
  | none => { st with returned := true }
  | some pn => { st with taken := st.taken ++ [pn] }

/-- The loop of `sender` over the successive receives from `conn.queue`. -/
def sender (recvs : List (Option PushNotification)) : SenderState :=
  recvs.foldl senderStep SenderState.init

/-! ## Start -/

/-- The channels of a Connection and of `Start`. -/
inductive Chan where
  | queue
  | errors
  | sent
  | responses
deriving DecidableEq, Repr

/-- The goroutines of connection.go with the channels they are handed. -/
inductive Goroutine where
  | sender (queueChan sentChan : Chan)
  | reader (responsesChan : Chan)
  | limbo (sentChan responsesChan errorsChan queueChan : Chan)
deriving DecidableEq, Repr

/-- What a call of `Start` does: the goroutines its `go` statements launch, in
order, and the error it returns (`none` is `nil`). -/
structure StartResult where
  launched : List Goroutine
  err : Option String
deriving DecidableEq, Repr

/-- The Go method `Start` (lines 45-55): `go conn.sender(conn.queue, sent)`,
`go conn.reader(responses)`, the comment `Start limbo goroutine`, and
`return nil`. -/
def Start : StartResult :=
  { launched := [Goroutine.sender Chan.queue Chan.sent, Goroutine.reader Chan.responses],
    err := none }

/-! ## Lemmas on the two scans -/

theorem requeueSwitch_fields (resp : Response) (s : RequeueState) (x : PushNotification) :
    (requeueSwitch resp s x).limbo = s.limbo ∧ (requeueSwitch resp s x).pn = s.pn
      ∧ (requeueSwitch resp s x).errors = s.errors
      ∧ (requeueSwitch resp s x).waiting = s.waiting := by
  unfold requeueSwitch
  split_ifs <;> exact ⟨rfl, rfl, rfl, rfl⟩

theorem requeueSwitch_miss (resp : Response) (s : RequeueState) (x : PushNotification)
    (hx : x.Identifier ≠ resp.Identifier) (hh : s.hit = false) :
    requeueSwitch resp s x = s := by
  simp [requeueSwitch, hx, hh]

theorem requeueIter_nil (resp : Response) (s : RequeueState) (h : s.limbo = []) :
    requeueIter resp s = { s with waiting := true } := by
  simp [requeueIter, h]

theorem requeueIter_cons (resp : Response) (s : RequeueState) (x : PushNotification)
    (rest : List PushNotification) (h : s.limbo = x :: rest) :
    requeueIter resp s = requeueSwitch resp { s with limbo := rest, pn := some x } x := by
  simp [requeueIter, h]

theorem requeueIter_limbo (resp : Response) (s : RequeueState) (x : PushNotification)
    (rest : List PushNotification) (h : s.limbo = x :: rest) :
    (requeueIter resp s).limbo = rest := by
  rw [requeueIter_cons resp s x rest h, (requeueSwitch_fields resp _ x).1]

theorem requeueIter_errors (resp : Response) (s : RequeueState) :
    (requeueIter resp s).errors = s.errors := by
  cases h : s.limbo with
  | nil => rw [requeueIter_nil resp s h]
  | cons x rest => rw [requeueIter_cons resp s x rest h, (requeueSwitch_fields resp _ x).2.2.1]

theorem requeueLoop_nil (resp : Response) (s : RequeueState) (h : s.limbo = []) :
    requeueLoop resp s = { s with waiting := true } := by
  simp [requeueLoop, h, requeueIter_nil]

theorem requeueLoop_cons (resp : Response) (s : RequeueState) (x : PushNotification)
    (rest : List PushNotification) (h : s.limbo = x :: rest) :
    requeueLoop resp s = requeueLoop resp (requeueIter resp s) := by
  unfold requeueLoop
  rw [requeueIter_limbo resp s x rest h, h, List.length_cons, Function.iterate_succ_apply]

/-- The loop sends nothing on the errors channel. -/
theorem requeueLoop_errors (resp : Response) (l : List PushNotification) (s : RequeueState)
    (h : s.limbo = l) : (requeueLoop resp s).errors = s.errors := by
  induction l generalizing s with
  | nil => rw [requeueLoop_nil resp s h]
  | cons x rest ih =>
    rw [requeueLoop_cons resp s x rest h, ih _ (requeueIter_limbo resp s x rest h),
      requeueIter_errors]

/-- The loop receives every queued notification and is then left waiting. -/
theorem requeueLoop_drains (resp : Response) (l : List PushNotification) (s : RequeueState)
    (h : s.limbo = l) :
    (requeueLoop resp s).limbo = [] ∧ (requeueLoop resp s).waiting = true := by
  induction l generalizing s with
  | nil => rw [requeueLoop_nil resp s h]; exact ⟨h, rfl⟩
  | cons x rest ih =>
    rw [requeueLoop_cons resp s x rest h]
    exact ih _ (requeueIter_limbo resp s x rest h)

/-- With no notification carrying the identifier, the loop calls Enqueue for
nothing. -/
theorem requeueLoop_miss (resp : Response) (l : List PushNotification) (s : RequeueState)
    (h : s.limbo = l) (hmiss : ∀ pn ∈ l, pn.Identifier ≠ resp.Identifier)
    (hh : s.hit = false) : (requeueLoop resp s).enqueued = s.enqueued := by
  induction l generalizing s with
  | nil => rw [requeueLoop_nil resp s h]
  | cons x rest ih =>
    have hx : x.Identifier ≠ resp.Identifier := hmiss x (List.mem_cons_self _ _)
    have hiter : requeueIter resp s = { s with limbo := rest, pn := some x } := by
      rw [requeueIter_cons resp s x rest h]
      exact requeueSwitch_miss resp _ x hx hh
    rw [requeueLoop_cons resp s x rest h, hiter]
    exact ih _ rfl (fun y hy => hmiss y (List.mem_cons_of_mem _ hy)) hh

theorem dropUntil_split (identifier : Nat) (pre post : List PushNotification)
    (x : PushNotification) (hpre : ∀ pn ∈ pre, pn.Identifier ≠ identifier)
    (hx : x.Identifier = identifier) :
    dropUntil identifier (pre ++ x :: post) = (post, false) := by
  induction pre with
  | nil => simp [dropUntil, hx]
  | cons pn rest ih =>
    have h1 : pn.Identifier ≠ identifier := hpre pn (List.mem_cons_self _ _)
    have h2 := ih (fun y hy => hpre y (List.mem_cons_of_mem _ hy))
    simp [dropUntil, h1, h2]

theorem dropUntil_miss (identifier : Nat) (l : List PushNotification)
    (h : ∀ pn ∈ l, pn.Identifier ≠ identifier) :
    dropUntil identifier l = ([], true) := by
  induction l with
  | nil => rfl
  | cons pn rest ih =>
    have h1 : pn.Identifier ≠ identifier := h pn (List.mem_cons_self _ _)
    have h2 := ih (fun x hx => h x (List.mem_cons_of_mem _ hx))
    simp [dropUntil, h1, h2]

/-- A buffer holding a notification with the identifier splits at the first
such notification. -/
theorem exists_first_match (identifier : Nat) (l : List PushNotification)
    (h : ∃ pn ∈ l, pn.Identifier = identifier) :
    ∃ pre x post, l = pre ++ x :: post ∧ (∀ pn ∈ pre, pn.Identifier ≠ identifier)
      ∧ x.Identifier = identifier := by
  induction l with
  | nil => obtain ⟨pn, hpn, _⟩ := h; cases hpn
  | cons a rest ih =>
    by_cases ha : a.Identifier = identifier
    · exact ⟨[], a, rest, rfl, by simp, ha⟩
    · obtain ⟨pn, hpn, hid⟩ := h
      rcases List.mem_cons.mp hpn with heq | hmem
      · exact absurd (heq ▸ hid) ha
      · obtain ⟨pre, x, post, hl, hpre, hx⟩ := ih ⟨pn, hmem, hid⟩
        refine ⟨a :: pre, x, post, by simp [hl], ?_, hx⟩
        intro y hy
        rcases List.mem_cons.mp hy with heq | hmem
        · exact heq ▸ ha
        · exact hpre y hmem

/-! ## The response handler on a matched frame -/

/-- C1 (the code at the failing input): with the buffer 1,2,3 in flight, the
frame with status 8 and identifier 2 makes the response handler send nothing
on the errors channel, although the claim expects one rejected notification
there, the one with identifier 2. -/
theorem rejected_notification_not_reported :
    (handleResponse (LimboState.ofBuffer [pnOf 1, pnOf 2, pnOf 3]) ⟨8, 2⟩).errors = [] := by
  decide

/-- C3 (the code at the failing input): with the buffer 1,2,3 in flight, a
receive that reports the responses channel closed makes the handler call
Enqueue for nothing; it takes all three notifications out of the buffer and is
left waiting on the empty buffer.  The claim expects all three re-enqueued. -/
theorem closed_queue_requeues_nothing :
    (handleClosed (LimboState.ofBuffer [pnOf 1, pnOf 2, pnOf 3])).enqueued = []
      ∧ (handleClosed (LimboState.ofBuffer [pnOf 1, pnOf 2, pnOf 3])).limbo = []
      ∧ (handleClosed (LimboState.ofBuffer [pnOf 1, pnOf 2, pnOf 3])).blocked = true := by
  decide

/-! ## The synthetic-timeout scan -/

/-- C5 (the code at the failing input): with the buffer 1,2,3 in flight, the
synthetic response with identifier 9, which no notification carries, makes the
scan take all three notifications out of the buffer and leaves the handler
waiting on the empty buffer.  The claim expects the buffer unchanged. -/
theorem unmatched_timeout_drains_buffer :
    (handleResponse (LimboState.ofBuffer [pnOf 1, pnOf 2, pnOf 3]) ⟨0, 9⟩).limbo = []
      ∧ (handleResponse (LimboState.ofBuffer [pnOf 1, pnOf 2, pnOf 3]) ⟨0, 9⟩).blocked = true
      ∧ (handleResponse (LimboState.ofBuffer []) ⟨0, 9⟩).blocked = true := by
  decide

/-- C6 (the code at the failing input): with the buffer 1,2,3 in flight,
handling the synthetic response with identifier 1 once leaves 2,3; handling it
a second time takes 2 and 3 out as well and leaves the handler waiting on the
empty buffer.  The claim expects the second scan to remove nothing. -/
theorem repeated_timeout_drains_buffer :
    (run 10 (LimboState.ofBuffer [pnOf 1, pnOf 2, pnOf 3])
        [Event.response ⟨0, 1⟩]).limbo = [pnOf 2, pnOf 3]
      ∧ (run 10 (LimboState.ofBuffer [pnOf 1, pnOf 2, pnOf 3])
        [Event.response ⟨0, 1⟩, Event.response ⟨0, 1⟩]).limbo = []
      ∧ (run 10 (LimboState.ofBuffer [pnOf 1, pnOf 2, pnOf 3])
        [Event.response ⟨0, 1⟩, Event.response ⟨0, 1⟩]).blocked = true := by
  decide

/-- C7: when the buffer holds a notification with the identifier of a
status-0 response, the handler takes out the notifications from the front
through the first one with that identifier, leaves the ones after it in the
buffer in their order, calls Enqueue for nothing, sends nothing on the errors
channel, and returns. -/
theorem timeout_drops_through_first_match (st : LimboState) (r : Response)
    (hs : r.Status = 0) (hX : ∃ pn ∈ st.limbo, pn.Identifier = r.Identifier) :
    ∃ pre x post, st.limbo = pre ++ x :: post
      ∧ (∀ pn ∈ pre, pn.Identifier ≠ r.Identifier)
      ∧ x.Identifier = r.Identifier
      ∧ (handleResponse st r).limbo = post
      ∧ (handleResponse st r).enqueued = st.enqueued
      ∧ (handleResponse st r).errors = st.errors
      ∧ (handleResponse st r).blocked = false := by
  obtain ⟨pre, x, post, hl, hpre, hx⟩ := exists_first_match r.Identifier st.limbo hX
  refine ⟨pre, x, post, hl, hpre, hx, ?_⟩
  have hscan := dropUntil_split r.Identifier pre post x hpre hx
  rw [← hl] at hscan
  simp [handleResponse, hs, hscan]

/-- Witness for C7: the buffer 1..5 with anchor 3 (4,5 are left) and with
anchor 5 (nothing is left). -/
theorem timeout_drops_through_first_match_witness :
    (∃ pre x post, [pnOf 1, pnOf 2, pnOf 3, pnOf 4, pnOf 5] = pre ++ x :: post
      ∧ (∀ pn ∈ pre, pn.Identifier ≠ 3)
      ∧ x.Identifier = 3
      ∧ (handleResponse (LimboState.ofBuffer [pnOf 1, pnOf 2, pnOf 3, pnOf 4, pnOf 5])
          ⟨0, 3⟩).limbo = post
      ∧ (handleResponse (LimboState.ofBuffer [pnOf 1, pnOf 2, pnOf 3, pnOf 4, pnOf 5])
          ⟨0, 3⟩).enqueued = []
      ∧ (handleResponse (LimboState.ofBuffer [pnOf 1, pnOf 2, pnOf 3, pnOf 4, pnOf 5])
          ⟨0, 3⟩).errors = []
      ∧ (handleResponse (LimboState.ofBuffer [pnOf 1, pnOf 2, pnOf 3, pnOf 4, pnOf 5])
          ⟨0, 3⟩).blocked = false)
    ∧ (handleResponse (LimboState.ofBuffer [pnOf 1, pnOf 2, pnOf 3, pnOf 4, pnOf 5])
          ⟨0, 3⟩).limbo = [pnOf 4, pnOf 5]
    ∧ (handleResponse (LimboState.ofBuffer [pnOf 1, pnOf 2, pnOf 3, pnOf 4, pnOf 5])
          ⟨0, 5⟩).limbo = [] :=
  ⟨timeout_drops_through_first_match
      (LimboState.ofBuffer [pnOf 1, pnOf 2, pnOf 3, pnOf 4, pnOf 5]) ⟨0, 3⟩ rfl
      ⟨pnOf 3, by decide, rfl⟩,
    by decide, by decide⟩

/-! ## The reader's frame decoding -/

theorem or_shiftLeft_eq_add (a b i : Nat) (hb : b < 2 ^ i) :
    b ||| a <<< i = a * 2 ^ i + b := by
  rw [Nat.or_comm, Nat.shiftLeft_eq, Nat.mul_comm a, Nat.mul_add_lt_is_or hb]

theorem bigEndianUint32_bytes (a b c d : Nat) (ha : a < 256) (hb : b < 256) (hc : c < 256)
    (hd : d < 256) :
    bigEndianUint32 [a, b, c, d] = a * 2 ^ 24 + b * 2 ^ 16 + c * 2 ^ 8 + d := by
  have h1 : (c <<< 8) % 2 ^ 32 = c <<< 8 :=
    Nat.mod_eq_of_lt (by rw [Nat.shiftLeft_eq]; omega)
  have h2 : (b <<< 16) % 2 ^ 32 = b <<< 16 :=
    Nat.mod_eq_of_lt (by rw [Nat.shiftLeft_eq]; omega)
  have h3 : (a <<< 24) % 2 ^ 32 = a <<< 24 :=
    Nat.mod_eq_of_lt (by rw [Nat.shiftLeft_eq]; omega)
  simp only [bigEndianUint32, List.getD_cons_zero, List.getD_cons_succ]
  rw [h1, h2, h3, or_shiftLeft_eq_add c d 8 (by omega), or_shiftLeft_eq_add b _ 16 (by omega),
    or_shiftLeft_eq_add a _ 24 (by omega)]
  omega

/-- C9: when a call of Read fills the buffer with the six bytes b0..b5, the
reader publishes one Response, with Status b1 and Identifier
b2*2^24 + b3*2^16 + b4*2^8 + b5; a frame that differs only in its first byte
gives the same Response. -/
theorem reader_decodes_frame (st : ReaderState) (b0 b1 b2 b3 b4 b5 c0 : Nat)
    (hrun : st.returned = false) (h1 : b1 < 256) (h2 : b2 < 256) (h3 : b3 < 256)
    (h4 : b4 < 256) (h5 : b5 < 256) :
    (readerStep st (ReadResult.data [b0, b1, b2, b3, b4, b5])).responses
        = st.responses ++ [⟨b1, b2 * 2 ^ 24 + b3 * 2 ^ 16 + b4 * 2 ^ 8 + b5⟩]
      ∧ (readerStep st (ReadResult.data [c0, b1, b2, b3, b4, b5])).responses
        = (readerStep st (ReadResult.data [b0, b1, b2, b3, b4, b5])).responses := by
  have hdec : ∀ (x : Nat) (tl : List Nat), decodeResponse (x :: b1 :: b2 :: b3 :: b4 :: b5 :: tl)
      = ⟨b1, b2 * 2 ^ 24 + b3 * 2 ^ 16 + b4 * 2 ^ 8 + b5⟩ := by
    intro x tl
    have hid := bigEndianUint32_bytes b2 b3 b4 b5 h2 h3 h4 h5
    have hst : b1 % 256 = b1 := Nat.mod_eq_of_lt h1
    simp only [decodeResponse, newResponse, List.drop_succ_cons, List.drop_zero,
      List.take_succ_cons, List.take_zero, List.getD_cons_succ, List.getD_cons_zero, hid, hst]
  simp [readerStep, hrun, hdec]

/-- Witness for C9: the frames 8,8,0,0,1,2 and 255,8,0,0,1,2 both decode to
status 8 and identifier 258. -/
theorem reader_decodes_frame_witness :
    (readerStep ReaderState.init (ReadResult.data [8, 8, 0, 0, 1, 2])).responses
        = [] ++ [⟨8, 0 * 2 ^ 24 + 0 * 2 ^ 16 + 1 * 2 ^ 8 + 2⟩]
      ∧ (readerStep ReaderState.init (ReadResult.data [255, 8, 0, 0, 1, 2])).responses
        = (readerStep ReaderState.init (ReadResult.data [8, 8, 0, 0, 1, 2])).responses :=
  reader_decodes_frame ReaderState.init 8 8 0 0 1 2 255 rfl (by decide) (by decide)
    (by decide) (by decide) (by decide)

/-! ## Scheduling of synthetic timeouts -/

theorem handleResponse_timeNextNotification (st : LimboState) (r : Response) :
    (handleResponse st r).timeNextNotification = st.timeNextNotification := by
  unfold handleResponse
  split <;> rfl

theorem handleResponse_scheduled (st : LimboState) (r : Response) :
    (handleResponse st r).scheduled = st.scheduled := by
  unfold handleResponse
  split <;> rfl

theorem step_blocked (sentBufferSize : Nat) (st : LimboState) (ev : Event)
    (hb : st.blocked = true) : step sentBufferSize st ev = st := by
  simp [step, hb]

theorem step_sent (sentBufferSize : Nat) (st : LimboState) (pn : PushNotification)
    (hb : st.blocked = false) :
    step sentBufferSize st (Event.sent pn) = handleSent sentBufferSize st pn := by
  simp [step, hb]

theorem step_response (sentBufferSize : Nat) (st : LimboState) (r : Response)
    (hb : st.blocked = false) :
    step sentBufferSize st (Event.response r) = handleResponse st r := by
  simp [step, hb]

theorem step_closed (sentBufferSize : Nat) (st : LimboState) (hb : st.blocked = false) :
    step sentBufferSize st Event.closed = handleClosed st := by
  simp [step, hb]

theorem step_tick (sentBufferSize : Nat) (st : LimboState) (hb : st.blocked = false) :
    step sentBufferSize st Event.tick = { st with timeNextNotification := true } := by
  simp [step, hb]

theorem step_timeout_none (sentBufferSize : Nat) (st : LimboState) (i : Nat)
    (hb : st.blocked = false) (hi : st.pending.get? i = none) :
    step sentBufferSize st (Event.timeout i) = st := by
  simp only [step, hb, hi]
  rfl

theorem step_timeout_some (sentBufferSize : Nat) (st : LimboState) (i : Nat) (r : Response)
    (hb : st.blocked = false) (hi : st.pending.get? i = some r) :
    step sentBufferSize st (Event.timeout i)
      = handleResponse { st with pending := st.pending.eraseIdx i } r := by
  simp only [step, hb, hi]
  rfl

/-- One event other than a tick schedules at most one timeout, and none when
the flag is down; it never raises the flag, and lowers it when it schedules. -/
theorem step_scheduled (sentBufferSize : Nat) (st : LimboState) (ev : Event)
    (hev : ev ≠ Event.tick) :
    ((step sentBufferSize st ev).scheduled = st.scheduled
        ∧ (step sentBufferSize st ev).timeNextNotification = st.timeNextNotification)
      ∨ (st.timeNextNotification = true
        ∧ (step sentBufferSize st ev).timeNextNotification = false
        ∧ (step sentBufferSize st ev).scheduled.length = st.scheduled.length + 1) := by
  cases hb : st.blocked with
  | true => left; rw [step_blocked _ _ _ hb]; exact ⟨rfl, rfl⟩
  | false =>
    cases ev with
    | tick => exact absurd rfl hev
    | sent pn =>
      rw [step_sent _ _ _ hb]
      unfold handleSent
      by_cases hfull : sentBufferSize ≤ st.limbo.length
      · simp [hfull]
      · by_cases hflag : st.timeNextNotification = true
        · right; simp [hfull, hflag]
        · left; simp [hfull, hflag]
    | response r =>
      left
      rw [step_response _ _ _ hb]
      exact ⟨handleResponse_scheduled st r, handleResponse_timeNextNotification st r⟩
    | closed =>
      left
      rw [step_closed _ _ hb]
      exact ⟨handleResponse_scheduled st _, handleResponse_timeNextNotification st _⟩
    | timeout i =>
      left
      cases hp : st.pending.get? i with
      | none => rw [step_timeout_none _ _ _ hb hp]; exact ⟨rfl, rfl⟩
      | some r =>
        rw [step_timeout_some _ _ _ _ hb hp]
        exact ⟨handleResponse_scheduled _ r, handleResponse_timeNextNotification _ r⟩

theorem run_scheduled_bound (sentBufferSize : Nat) (evs : List Event)
    (hno : ∀ ev ∈ evs, ev ≠ Event.tick) (st : LimboState) :
    (run sentBufferSize st evs).scheduled.length
      ≤ st.scheduled.length + (if st.timeNextNotification = true then 1 else 0) := by
  induction evs generalizing st with
  | nil => simp [run]
  | cons ev rest ih =>
    have hrest := ih (fun e he => hno e (List.mem_cons_of_mem _ he)) (step sentBufferSize st ev)
    have hstep := step_scheduled sentBufferSize st ev (hno ev (List.mem_cons_self _ _))
    have hrun : run sentBufferSize st (ev :: rest)
        = run sentBufferSize (step sentBufferSize st ev) rest := rfl
    rw [hrun]
    rcases hstep with ⟨h1, h2⟩ | ⟨h1, h2, h3⟩
    · rw [h1, h2] at hrest; exact hrest
    · rw [h2, h3] at hrest
      simp only [h1, if_true]
      simpa using hrest

/-- C10: over any stretch of events without a tick, from any state of the
tracker, at most one synthetic timeout is scheduled, however many sent events
the stretch holds.  The state can be the initial one (the stretch before the
first tick) or the one a tick leaves (the stretch between two ticks). -/
theorem one_timeout_per_tick_interval (sentBufferSize : Nat) (st : LimboState)
    (evs : List Event) (hno : ∀ ev ∈ evs, ev ≠ Event.tick) :
    (run sentBufferSize st evs).scheduled.length ≤ st.scheduled.length + 1 := by
  have h := run_scheduled_bound sentBufferSize evs hno st
  split at h <;> omega

/-- Witness for C10: three sent events before the first tick schedule one
timeout. -/
theorem one_timeout_per_tick_interval_witness :
    (run 10 LimboState.init
        [Event.sent (pnOf 1), Event.sent (pnOf 2), Event.sent (pnOf 3)]).scheduled.length
      ≤ LimboState.init.scheduled.length + 1 :=
  one_timeout_per_tick_interval 10 LimboState.init
    [Event.sent (pnOf 1), Event.sent (pnOf 2), Event.sent (pnOf 3)] (by decide)

/-! ## Runs made of sent events, ticks and synthetic timeouts -/

theorem run_concat (sentBufferSize : Nat) (st : LimboState) (evs : List Event) (ev : Event) :
    run sentBufferSize st (evs ++ [ev]) = step sentBufferSize (run sentBufferSize st evs) ev := by
  simp [run, List.foldl_append]

theorem sentNotifications_concat (evs : List Event) (ev : Event) :
    sentNotifications (evs ++ [ev]) = sentNotifications evs ++ sentNotifications [ev] := by
  simp [sentNotifications, List.filterMap_append]

theorem handleSent_full (sentBufferSize : Nat) (st : LimboState) (pn : PushNotification)
    (h : sentBufferSize ≤ st.limbo.length) :
    handleSent sentBufferSize st pn = { st with blocked := true } := by
  simp [handleSent, h]

theorem handleSent_armed (sentBufferSize : Nat) (st : LimboState) (pn : PushNotification)
    (h : ¬ sentBufferSize ≤ st.limbo.length) (hflag : st.timeNextNotification = true) :
    handleSent sentBufferSize st pn
      = { st with limbo := st.limbo ++ [pn], pending := st.pending ++ [⟨0, pn.Identifier⟩],
                  scheduled := st.scheduled ++ [⟨0, pn.Identifier⟩],
                  timeNextNotification := false } := by
  simp [handleSent, h, hflag, newResponse]

theorem handleSent_unarmed (sentBufferSize : Nat) (st : LimboState) (pn : PushNotification)
    (h : ¬ sentBufferSize ≤ st.limbo.length) (hflag : st.timeNextNotification = false) :
    handleSent sentBufferSize st pn = { st with limbo := st.limbo ++ [pn] } := by
  simp [handleSent, h, hflag]

theorem handleResponse_zero (st : LimboState) (r : Response) (h : r.Status = 0) :
    handleResponse st r
      = { st with limbo := (dropUntil r.Identifier st.limbo).1,
                  blocked := (dropUntil r.Identifier st.limbo).2 } := by
  simp [handleResponse, h]

theorem handleResponse_errors (st : LimboState) (r : Response) :
    (handleResponse st r).errors = st.errors := by
  unfold handleResponse
  split
  · rfl
  · simp [requeueLoop_errors _ _ _ rfl, RequeueState.start]

theorem handleSent_errors (sentBufferSize : Nat) (st : LimboState) (pn : PushNotification) :
    (handleSent sentBufferSize st pn).errors = st.errors := by
  by_cases hfull : sentBufferSize ≤ st.limbo.length
  · rw [handleSent_full _ _ _ hfull]
  · cases hflag : st.timeNextNotification with
    | true => rw [handleSent_armed _ _ _ hfull hflag]
    | false => rw [handleSent_unarmed _ _ _ hfull hflag]

/-- No event makes the tracker send on the errors channel. -/
theorem step_errors (sentBufferSize : Nat) (st : LimboState) (ev : Event) :
    (step sentBufferSize st ev).errors = st.errors := by
  cases hb : st.blocked with
  | true => rw [step_blocked _ _ _ hb]
  | false =>
    cases ev with
    | tick => rw [step_tick _ _ hb]
    | sent pn => rw [step_sent _ _ _ hb, handleSent_errors]
    | response r => rw [step_response _ _ _ hb, handleResponse_errors]
    | closed => rw [step_closed _ _ hb, handleClosed, handleResponse_errors]
    | timeout i =>
      cases hp : st.pending.get? i with
      | none => rw [step_timeout_none _ _ _ hb hp]
      | some r => rw [step_timeout_some _ _ _ _ hb hp, handleResponse_errors]

theorem run_errors (sentBufferSize : Nat) (evs : List Event) (st : LimboState) :
    (run sentBufferSize st evs).errors = st.errors := by
  induction evs generalizing st with
  | nil => rfl
  | cons ev rest ih =>
    have hrun : run sentBufferSize st (ev :: rest)
        = run sentBufferSize (step sentBufferSize st ev) rest := rfl
    rw [hrun, ih, step_errors]

theorem mem_eraseIdx_of_ne (l : List Response) (i : Nat) (r x : Response)
    (hi : l.get? i = some r) (hx : x ∈ l) (hne : x ≠ r) : x ∈ l.eraseIdx i := by
  induction l generalizing i with
  | nil => cases hx
  | cons a rest ih =>
    cases i with
    | zero =>
      simp only [List.get?_cons_zero, Option.some.injEq] at hi
      rcases List.mem_cons.mp hx with h | h
      · exact absurd (h.trans hi) hne
      · simpa using h
    | succ n =>
      simp only [List.get?_cons_succ] at hi
      rcases List.mem_cons.mp hx with h | h
      · simp [h]
      · simp only [List.eraseIdx_cons_succ]
        exact List.mem_cons_of_mem _ (ih n hi h)

theorem timeoutInv_sent (sentBufferSize : Nat) (st : LimboState) (pn : PushNotification)
    (hist : List PushNotification) (hinv : TimeoutInv st hist)
    (hlive : (handleSent sentBufferSize st pn).blocked = false) :
    TimeoutInv (handleSent sentBufferSize st pn) (hist ++ [pn]) := by
  by_cases hfull : sentBufferSize ≤ st.limbo.length
  · rw [handleSent_full _ _ _ hfull] at hlive
    cases hlive
  obtain ⟨hstatus, hshape⟩ := hinv
  cases hflag : st.timeNextNotification with
  | true =>
    rw [handleSent_armed _ _ _ hfull hflag]
    refine ⟨?_, Or.inr ⟨hist, pn, [], rfl, ?_, ?_, Or.inr ⟨st.limbo, ?_, rfl, ?_⟩⟩⟩
    · intro r hr
      rcases List.mem_append.mp hr with h | h
      · exact hstatus r h
      · rw [List.mem_singleton.mp h]
    · exact List.getLast?_concat _
    · intro r hr
      rcases List.mem_append.mp hr with h | h
      · rcases hshape with ⟨_, _, hp, _, _⟩ | ⟨H, L, U, hh, _, hids, _⟩
        · rw [hp] at h; cases h
        · have := hids r h
          rw [hh]
          simp only [identifiers, List.map_append, List.map_cons, List.mem_append,
            List.mem_cons, List.map_nil, List.not_mem_nil, or_false] at this ⊢
          tauto
      · rw [List.mem_singleton.mp h]
        simp [identifiers]
    · rcases hshape with ⟨_, hl, _, _, _⟩ | ⟨H, L, U, hh, _, _, hbuf⟩
      · rw [hl]; exact List.nil_suffix
      · rcases hbuf with hU | ⟨X, hX, hl, _⟩
        · rw [hU, hh]
          exact (List.suffix_cons L U).trans (List.suffix_append H (L :: U))
        · obtain ⟨Y, hY⟩ := hX
          exact ⟨Y, by rw [hl, hh, ← hY]; simp⟩
    · simp
  | false =>
    rw [handleSent_unarmed _ _ _ hfull hflag]
    refine ⟨hstatus, ?_⟩
    rcases hshape with ⟨_, _, _, _, ht⟩ | ⟨H, L, U, hh, hlast, hids, hbuf⟩
    · rw [hflag] at ht; cases ht
    · refine Or.inr ⟨H, L, U ++ [pn], by simp [hh], hlast, hids, ?_⟩
      rcases hbuf with hU | ⟨X, hX, hl, hp⟩
      · left; simp [hU]
      · right; exact ⟨X, hX, by simp [hl], hp⟩

theorem timeoutInv_timeout (st : LimboState) (i : Nat) (r : Response)
    (hist : List PushNotification) (hinv : TimeoutInv st hist)
    (hnd : (identifiers hist).Nodup) (hi : st.pending.get? i = some r)
    (hlive : (handleResponse { st with pending := st.pending.eraseIdx i } r).blocked = false) :
    TimeoutInv (handleResponse { st with pending := st.pending.eraseIdx i } r) hist := by
  obtain ⟨hstatus, hshape⟩ := hinv
  have hr : r ∈ st.pending := List.get?_mem hi
  have hzero : r.Status = 0 := hstatus r hr
  rw [handleResponse_zero _ _ hzero] at hlive ⊢
  simp only at hlive ⊢
  have hstatus2 : ∀ x ∈ st.pending.eraseIdx i, x.Status = 0 :=
    fun x hx => hstatus x (List.mem_of_mem_eraseIdx hx)
  refine ⟨hstatus2, ?_⟩
  rcases hshape with ⟨_, _, hp, _, _⟩ | ⟨H, L, U, hh, hlast, hids, hbuf⟩
  · rw [hp] at hr; cases hr
  have hids2 : ∀ x ∈ st.pending.eraseIdx i, x.Identifier ∈ identifiers (H ++ [L]) :=
    fun x hx => hids x (List.mem_of_mem_eraseIdx hx)
  rw [hh, identifiers, List.map_append, List.map_cons] at hnd
  have hndH := List.nodup_append.mp hnd
  have hndL := List.nodup_cons.mp hndH.2.1
  have hrH : r.Identifier ∈ identifiers (H ++ [L]) := hids r hr
  have hrU : ∀ pn ∈ U, pn.Identifier ≠ r.Identifier := by
    intro pn hpn heq
    have hmemU : r.Identifier ∈ List.map PushNotification.Identifier U :=
      heq ▸ List.mem_map_of_mem _ hpn
    simp only [identifiers, List.map_append, List.map_cons, List.map_nil, List.mem_append,
      List.mem_singleton] at hrH
    rcases hrH with h | h
    · exact hndH.2.2 h (List.mem_cons_of_mem _ hmemU)
    · exact hndL.1 (h ▸ hmemU)
  refine Or.inr ⟨H, L, U, hh, hlast, hids2, ?_⟩
  rcases hbuf with hU | ⟨X, hX, hl, hp⟩
  · rw [hU, dropUntil_miss _ _ hrU] at hlive
    cases hlive
  · have hXH : ∀ pn ∈ X, pn.Identifier ∈ List.map PushNotification.Identifier H :=
      fun pn hpn => List.mem_map_of_mem _ (hX.subset hpn)
    by_cases hrL : L.Identifier = r.Identifier
    · left
      have hpre : ∀ pn ∈ X, pn.Identifier ≠ r.Identifier := by
        intro pn hpn heq
        exact hndH.2.2 (hXH pn hpn) (by rw [heq, ← hrL]; exact List.mem_cons_self _ _)
      rw [hl, dropUntil_split _ X U L hpre hrL]
    · by_cases hrX : ∃ pn ∈ X, pn.Identifier = r.Identifier
      · right
        obtain ⟨X1, x, X2, hsplit, hpre, hx⟩ := exists_first_match _ _ hrX
        have hscan := dropUntil_split r.Identifier X1 (X2 ++ L :: U) x hpre hx
        have hlimbo : st.limbo = X1 ++ x :: (X2 ++ L :: U) := by rw [hl, hsplit]; simp
        rw [hlimbo, hscan]
        refine ⟨X2, ?_, rfl, ?_⟩
        · have h1 : X2 <:+ X := by
            rw [hsplit]
            exact (List.suffix_cons x X2).trans (List.suffix_append X1 (x :: X2))
          exact h1.trans hX
        · apply mem_eraseIdx_of_ne _ _ _ _ hi hp
          intro heq
          exact hrL (by rw [← heq])
      · have hmiss : ∀ pn ∈ st.limbo, pn.Identifier ≠ r.Identifier := by
          intro pn hpn
          rw [hl] at hpn
          rcases List.mem_append.mp hpn with h | h
          · exact fun heq => hrX ⟨pn, h, heq⟩
          · rcases List.mem_cons.mp h with h | h
            · rw [h]; exact hrL
            · exact hrU pn h
        rw [dropUntil_miss _ _ hmiss] at hlive
        cases hlive

theorem timeoutInv_step (sentBufferSize : Nat) (st : LimboState) (ev : Event)
    (hist : List PushNotification) (hinv : TimeoutInv st hist)
    (hquiet : ev.isFrame = false)
    (hnd : (identifiers (hist ++ sentNotifications [ev])).Nodup)
    (hb : st.blocked = false) (hlive : (step sentBufferSize st ev).blocked = false) :
    TimeoutInv (step sentBufferSize st ev) (hist ++ sentNotifications [ev]) := by
  cases ev with
  | response r => cases hquiet
  | closed => cases hquiet
  | sent pn =>
    rw [step_sent _ _ _ hb] at hlive ⊢
    exact timeoutInv_sent sentBufferSize st pn hist hinv hlive
  | tick =>
    rw [step_tick _ _ hb]
    have hsame : hist ++ sentNotifications [Event.tick] = hist := by
      simp [sentNotifications, Event.sentOf?]
    rw [hsame]
    obtain ⟨hstatus, hshape⟩ := hinv
    refine ⟨hstatus, ?_⟩
    rcases hshape with ⟨h1, h2, h3, h4, _⟩ | h
    · exact Or.inl ⟨h1, h2, h3, h4, rfl⟩
    · exact Or.inr h
  | timeout i =>
    have hsame : hist ++ sentNotifications [Event.timeout i] = hist := by
      simp [sentNotifications, Event.sentOf?]
    rw [hsame] at hnd ⊢
    cases hp : st.pending.get? i with
    | none => rw [step_timeout_none _ _ _ hb hp]; exact hinv
    | some r =>
      rw [step_timeout_some _ _ _ _ hb hp] at hlive ⊢
      exact timeoutInv_timeout st i r hist hinv hnd hp hlive

theorem timeoutInv_init : TimeoutInv LimboState.init [] :=
  ⟨fun _ h => (by cases h), Or.inl ⟨rfl, rfl, rfl, rfl, rfl⟩⟩

theorem timeoutInv_run (sentBufferSize : Nat) (evs : List Event)
    (hquiet : ∀ ev ∈ evs, ev.isFrame = false)
    (hnd : (identifiers (sentNotifications evs)).Nodup)
    (hlive : (run sentBufferSize LimboState.init evs).blocked = false) :
    TimeoutInv (run sentBufferSize LimboState.init evs) (sentNotifications evs) := by
  induction evs using List.reverseRecOn with
  | nil => exact timeoutInv_init
  | append_singleton evs ev ih =>
    rw [run_concat] at hlive ⊢
    rw [sentNotifications_concat] at hnd ⊢
    have hb : (run sentBufferSize LimboState.init evs).blocked = false := by
      cases hprev : (run sentBufferSize LimboState.init evs).blocked with
      | false => rfl
      | true => rw [step_blocked _ _ _ hprev] at hlive; rw [hprev] at hlive; cases hlive
    have hnd1 : (identifiers (sentNotifications evs)).Nodup := by
      rw [identifiers, List.map_append] at hnd
      exact (List.nodup_append.mp hnd).1
    have hinv := ih (fun e he => hquiet e (List.mem_append_left _ he)) hnd1 hb
    exact timeoutInv_step sentBufferSize _ ev _ hinv
      (hquiet ev (List.mem_append_right _ (List.mem_singleton_self _))) hnd hb hlive

/-- C4 as stated fails: two notifications sent with no tick between them
schedule one timeout, for the first; once it has been delivered and handled,
every scheduled timeout has been, no frame has arrived, and the second
notification is still in the buffer. -/
theorem tick_batching_leaves_buffer_nonempty :
    sentNotifications [Event.sent (pnOf 1), Event.sent (pnOf 2), Event.timeout 0]
        = [pnOf 1, pnOf 2]
      ∧ (run 10 LimboState.init
          [Event.sent (pnOf 1), Event.sent (pnOf 2), Event.timeout 0]).scheduled = [⟨0, 1⟩]
      ∧ (run 10 LimboState.init
          [Event.sent (pnOf 1), Event.sent (pnOf 2), Event.timeout 0]).pending = []
      ∧ (run 10 LimboState.init
          [Event.sent (pnOf 1), Event.sent (pnOf 2), Event.timeout 0]).blocked = false
      ∧ (run 10 LimboState.init
          [Event.sent (pnOf 1), Event.sent (pnOf 2), Event.timeout 0]).limbo = [pnOf 2]
      ∧ (run 10 LimboState.init
          [Event.sent (pnOf 1), Event.sent (pnOf 2), Event.timeout 0]).limbo ≠ [] := by
  decide

/-- C4, amended: in a run from the initial state made of sent events with
pairwise distinct identifiers, ticks and deliveries of the tracker's own
synthetic timeouts, at whose end every scheduled timeout has been delivered
and handled and the tracker is not left waiting, nothing has been sent on the
errors channel and the buffer holds exactly the notifications sent after the
one that the last scheduled timeout names; the buffer is empty when that one
is the last notification sent. -/
theorem quiet_run_keeps_unscheduled_tail (sentBufferSize : Nat) (evs : List Event)
    (hquiet : ∀ ev ∈ evs, ev.isFrame = false)
    (hdistinct : (identifiers (sentNotifications evs)).Nodup)
    (hdone : (run sentBufferSize LimboState.init evs).pending = [])
    (hlive : (run sentBufferSize LimboState.init evs).blocked = false) :
    (run sentBufferSize LimboState.init evs).errors = []
      ∧ ((sentNotifications evs = [] ∧ (run sentBufferSize LimboState.init evs).limbo = [])
        ∨ ∃ H L, sentNotifications evs
              = H ++ L :: (run sentBufferSize LimboState.init evs).limbo
            ∧ (run sentBufferSize LimboState.init evs).scheduled.getLast?
              = some ⟨0, L.Identifier⟩)
      ∧ (∀ L, (sentNotifications evs).getLast? = some L
          → (run sentBufferSize LimboState.init evs).scheduled.getLast?
              = some ⟨0, L.Identifier⟩
          → (run sentBufferSize LimboState.init evs).limbo = []) := by
  have hinv := timeoutInv_run sentBufferSize evs hquiet hdistinct hlive
  obtain ⟨_, hshape⟩ := hinv
  have hmain : (sentNotifications evs = []
        ∧ (run sentBufferSize LimboState.init evs).limbo = [])
      ∨ ∃ H L, sentNotifications evs
            = H ++ L :: (run sentBufferSize LimboState.init evs).limbo
          ∧ (run sentBufferSize LimboState.init evs).scheduled.getLast?
            = some ⟨0, L.Identifier⟩ := by
    rcases hshape with ⟨h1, h2, _, _, _⟩ | ⟨H, L, U, hh, hlast, _, hbuf⟩
    · exact Or.inl ⟨h1, h2⟩
    · rcases hbuf with hU | ⟨X, _, _, hp⟩
      · exact Or.inr ⟨H, L, by rw [hU]; exact hh, hlast⟩
      · rw [hdone] at hp; cases hp
  refine ⟨by rw [run_errors]; rfl, hmain, ?_⟩
  intro L hL hsched
  rcases hmain with ⟨_, h⟩ | ⟨H, L2, hh, hlast⟩
  · exact h
  · rw [hlast] at hsched
    have hid : L2.Identifier = L.Identifier := by
      have := Option.some.inj hsched
      exact congrArg Response.Identifier this
    rcases List.eq_nil_or_concat (run sentBufferSize LimboState.init evs).limbo with
      h | ⟨Z, b, hZ⟩
    · exact h
    · exfalso
      obtain ⟨ys, hys⟩ := List.getLast?_eq_some_iff.mp hL
      rw [List.concat_eq_append] at hZ
      rw [hZ] at hh
      have heq : (H ++ L2 :: Z) ++ [b] = ys ++ [L] := by
        rw [← hys, hh]; simp
      have hb : b = L := by
        have := List.append_inj_right' heq rfl
        exact List.singleton_inj.mp this
      rw [hh, identifiers, List.map_append, List.map_cons] at hdistinct
      have hnd := List.nodup_cons.mp (List.nodup_append.mp hdistinct).2.1
      apply hnd.1
      rw [hid, ← hb]
      exact List.mem_map_of_mem _ (List.mem_append_right _ (List.mem_singleton_self _))

/-- Witness for C4, amended: notifications 1 and 2 are sent, a tick passes,
3 and 4 are sent, and the two scheduled timeouts (for 1 and for 3) are
delivered; notification 4 is left in the buffer. -/
theorem quiet_run_keeps_unscheduled_tail_witness :
    ((run 10 LimboState.init [Event.sent (pnOf 1), Event.sent (pnOf 2), Event.tick,
        Event.sent (pnOf 3), Event.sent (pnOf 4), Event.timeout 0, Event.timeout 0]).errors = []
      ∧ ((sentNotifications [Event.sent (pnOf 1), Event.sent (pnOf 2), Event.tick,
            Event.sent (pnOf 3), Event.sent (pnOf 4), Event.timeout 0, Event.timeout 0] = []
          ∧ (run 10 LimboState.init [Event.sent (pnOf 1), Event.sent (pnOf 2), Event.tick,
            Event.sent (pnOf 3), Event.sent (pnOf 4), Event.timeout 0, Event.timeout 0]).limbo
              = [])
        ∨ ∃ H L, sentNotifications [Event.sent (pnOf 1), Event.sent (pnOf 2), Event.tick,
              Event.sent (pnOf 3), Event.sent (pnOf 4), Event.timeout 0, Event.timeout 0]
              = H ++ L :: (run 10 LimboState.init [Event.sent (pnOf 1), Event.sent (pnOf 2),
                  Event.tick, Event.sent (pnOf 3), Event.sent (pnOf 4), Event.timeout 0,
                  Event.timeout 0]).limbo
            ∧ (run 10 LimboState.init [Event.sent (pnOf 1), Event.sent (pnOf 2), Event.tick,
                Event.sent (pnOf 3), Event.sent (pnOf 4), Event.timeout 0,
                Event.timeout 0]).scheduled.getLast? = some ⟨0, L.Identifier⟩)
      ∧ (∀ L, (sentNotifications [Event.sent (pnOf 1), Event.sent (pnOf 2), Event.tick,
            Event.sent (pnOf 3), Event.sent (pnOf 4), Event.timeout 0,
            Event.timeout 0]).getLast? = some L
          → (run 10 LimboState.init [Event.sent (pnOf 1), Event.sent (pnOf 2), Event.tick,
                Event.sent (pnOf 3), Event.sent (pnOf 4), Event.timeout 0,
                Event.timeout 0]).scheduled.getLast? = some ⟨0, L.Identifier⟩
          → (run 10 LimboState.init [Event.sent (pnOf 1), Event.sent (pnOf 2), Event.tick,
                Event.sent (pnOf 3), Event.sent (pnOf 4), Event.timeout 0,
                Event.timeout 0]).limbo = []))
    ∧ (run 10 LimboState.init [Event.sent (pnOf 1), Event.sent (pnOf 2), Event.tick,
        Event.sent (pnOf 3), Event.sent (pnOf 4), Event.timeout 0, Event.timeout 0]).limbo
        = [pnOf 4] :=
  ⟨quiet_run_keeps_unscheduled_tail 10 [Event.sent (pnOf 1), Event.sent (pnOf 2), Event.tick,
      Event.sent (pnOf 3), Event.sent (pnOf 4), Event.timeout 0, Event.timeout 0]
      (by decide) (by decide) (by decide) (by decide),
    by decide⟩

/-! ## Order of the in-flight buffer -/

theorem dropUntil_suffix (identifier : Nat) (l : List PushNotification) :
    (dropUntil identifier l).1 <:+ l := by
  induction l with
  | nil => exact List.suffix_refl _
  | cons pn rest ih =>
    by_cases h : pn.Identifier = identifier
    · simp only [dropUntil, h, if_true]
      exact List.suffix_cons pn rest
    · simp only [dropUntil, h, if_false]
      exact ih.trans (List.suffix_cons pn rest)

/-- The response handler only takes notifications from the front of the
buffer. -/
theorem handleResponse_limbo_suffix (st : LimboState) (r : Response) :
    (handleResponse st r).limbo <:+ st.limbo := by
  unfold handleResponse
  split
  · exact dropUntil_suffix _ _
  · simp only [(requeueLoop_drains r st.limbo (RequeueState.start st.limbo) rfl).1]
    exact List.nil_suffix

/-- Every event either is a sent event that puts its notification at the back
of the buffer or leaves a tail of the buffer. -/
theorem step_limbo (sentBufferSize : Nat) (st : LimboState) (ev : Event) :
    (∃ pn, ev = Event.sent pn ∧ (step sentBufferSize st ev).blocked = false
        ∧ (step sentBufferSize st ev).limbo = st.limbo ++ [pn])
      ∨ (step sentBufferSize st ev).limbo <:+ st.limbo := by
  cases hb : st.blocked with
  | true => right; rw [step_blocked _ _ _ hb]
  | false =>
    cases ev with
    | tick => right; rw [step_tick _ _ hb]
    | response r => right; rw [step_response _ _ _ hb]; exact handleResponse_limbo_suffix _ _
    | closed => right; rw [step_closed _ _ hb]; exact handleResponse_limbo_suffix _ _
    | timeout i =>
      right
      cases hp : st.pending.get? i with
      | none => rw [step_timeout_none _ _ _ hb hp]
      | some r =>
        rw [step_timeout_some _ _ _ _ hb hp]
        exact handleResponse_limbo_suffix _ _
    | sent pn =>
      rw [step_sent _ _ _ hb]
      by_cases hfull : sentBufferSize ≤ st.limbo.length
      · right; rw [handleSent_full _ _ _ hfull]
      · left
        refine ⟨pn, rfl, ?_⟩
        cases hflag : st.timeNextNotification with
        | true => rw [handleSent_armed _ _ _ hfull hflag]; exact ⟨hb, rfl⟩
        | false => rw [handleSent_unarmed _ _ _ hfull hflag]; exact ⟨hb, rfl⟩

theorem orderInv_step (sentBufferSize : Nat) (st : LimboState) (ev : Event)
    (hist : List PushNotification) (hinv : OrderInv st hist) :
    OrderInv (step sentBufferSize st ev) (hist ++ sentNotifications [ev]) := by
  obtain ⟨hcontig, hsuffix⟩ := hinv
  cases hb : st.blocked with
  | true =>
    rw [step_blocked _ _ _ hb]
    refine ⟨hcontig.trans (List.prefix_append _ _).isInfix, ?_⟩
    intro h; rw [hb] at h; cases h
  | false =>
    have hsuf := hsuffix hb
    rcases step_limbo sentBufferSize st ev with ⟨pn, hev, _, hl⟩ | hl
    · have hhist : hist ++ sentNotifications [ev] = hist ++ [pn] := by
        rw [hev]; rfl
      have hnew : (step sentBufferSize st ev).limbo <:+ hist ++ sentNotifications [ev] := by
        rw [hhist, hl]
        obtain ⟨Y, hY⟩ := hsuf
        exact ⟨Y, by rw [← hY]; simp⟩
      exact ⟨hnew.isInfix, fun _ => hnew⟩
    · have hold : (step sentBufferSize st ev).limbo <:+ hist := hl.trans hsuf
      cases ev with
      | sent pn =>
        refine ⟨hold.isInfix.trans (List.prefix_append _ _).isInfix, ?_⟩
        intro hlive
        rw [step_sent _ _ _ hb] at hlive hl
        by_cases hfull : sentBufferSize ≤ st.limbo.length
        · rw [handleSent_full _ _ _ hfull] at hlive; cases hlive
        · exfalso
          have hlen := hl.length_le
          cases hflag : st.timeNextNotification with
          | true => rw [handleSent_armed _ _ _ hfull hflag] at hlen; simp at hlen
          | false => rw [handleSent_unarmed _ _ _ hfull hflag] at hlen; simp at hlen
      | tick =>
        have : hist ++ sentNotifications [Event.tick] = hist := by
          simp [sentNotifications, Event.sentOf?]
        rw [this]; exact ⟨hold.isInfix, fun _ => hold⟩
      | response r =>
        have : hist ++ sentNotifications [Event.response r] = hist := by
          simp [sentNotifications, Event.sentOf?]
        rw [this]; exact ⟨hold.isInfix, fun _ => hold⟩
      | closed =>
        have : hist ++ sentNotifications [Event.closed] = hist := by
          simp [sentNotifications, Event.sentOf?]
        rw [this]; exact ⟨hold.isInfix, fun _ => hold⟩
      | timeout i =>
        have : hist ++ sentNotifications [Event.timeout i] = hist := by
          simp [sentNotifications, Event.sentOf?]
        rw [this]; exact ⟨hold.isInfix, fun _ => hold⟩

theorem orderInv_run (sentBufferSize : Nat) (evs : List Event) :
    OrderInv (run sentBufferSize LimboState.init evs) (sentNotifications evs) := by
  induction evs using List.reverseRecOn with
  | nil => exact ⟨List.infix_refl _, fun _ => List.suffix_refl _⟩
  | append_singleton evs ev ih =>
    rw [run_concat, sentNotifications_concat]
    exact orderInv_step sentBufferSize _ ev _ ih

/-- C11: after any sequence of events from the initial state, the in-flight
buffer is a contiguous run of the notifications of the sent events, in the
order they were sent (their tail while the tracker is not left waiting); and
every event, from any state, either is a sent event that puts its notification
at the back of the buffer or leaves a tail of the buffer. -/
theorem in_flight_order (sentBufferSize : Nat) (evs : List Event) :
    (run sentBufferSize LimboState.init evs).limbo <:+: sentNotifications evs
      ∧ ((run sentBufferSize LimboState.init evs).blocked = false →
          (run sentBufferSize LimboState.init evs).limbo <:+ sentNotifications evs)
      ∧ ∀ (st : LimboState) (ev : Event),
          (∃ pn, ev = Event.sent pn ∧ (step sentBufferSize st ev).limbo = st.limbo ++ [pn])
            ∨ (step sentBufferSize st ev).limbo <:+ st.limbo := by
  have h := orderInv_run sentBufferSize evs
  refine ⟨h.1, h.2, ?_⟩
  intro st ev
  rcases step_limbo sentBufferSize st ev with ⟨pn, h1, _, h2⟩ | h
  · exact Or.inl ⟨pn, h1, h2⟩
  · exact Or.inr h

/-! ## Frames that match no notification -/

/-- C12: a response with a non-zero status whose identifier no notification
of the buffer carries makes the handler call Enqueue for nothing and send
nothing on the errors channel. -/
theorem unmatched_frame_requeues_nothing (st : LimboState) (r : Response)
    (h0 : r.Status ≠ 0) (hmiss : ∀ pn ∈ st.limbo, pn.Identifier ≠ r.Identifier) :
    (handleResponse st r).enqueued = st.enqueued
      ∧ (handleResponse st r).errors = st.errors := by
  refine ⟨?_, handleResponse_errors st r⟩
  have hloop : (requeueLoop r (RequeueState.start st.limbo)).enqueued = [] :=
    requeueLoop_miss r st.limbo (RequeueState.start st.limbo) rfl hmiss rfl
  simp [handleResponse, h0, hloop]

/-- Witness for C12: the buffer 1,2,3 and the frame with status 8 and
identifier 9. -/
theorem unmatched_frame_requeues_nothing_witness :
    (handleResponse (LimboState.ofBuffer [pnOf 1, pnOf 2, pnOf 3]) ⟨8, 9⟩).enqueued = []
      ∧ (handleResponse (LimboState.ofBuffer [pnOf 1, pnOf 2, pnOf 3]) ⟨8, 9⟩).errors = [] :=
  unmatched_frame_requeues_nothing (LimboState.ofBuffer [pnOf 1, pnOf 2, pnOf 3]) ⟨8, 9⟩
    (by decide) (by decide)

/-! ## The sent handler -/

/-- C15 as stated fails: with a channel capacity of 2 and the buffer 1,2, the
sent handler for notification 3 does not put it in the buffer and, although
the flag is up, schedules nothing: the send on the full channel never
completes. -/
theorem sent_on_full_buffer_blocks :
    (LimboState.ofBuffer [pnOf 1, pnOf 2]).timeNextNotification = true
      ∧ (handleSent 2 (LimboState.ofBuffer [pnOf 1, pnOf 2]) (pnOf 3)).limbo
          = [pnOf 1, pnOf 2]
      ∧ (handleSent 2 (LimboState.ofBuffer [pnOf 1, pnOf 2]) (pnOf 3)).limbo
          ≠ [pnOf 1, pnOf 2] ++ [pnOf 3]
      ∧ (handleSent 2 (LimboState.ofBuffer [pnOf 1, pnOf 2]) (pnOf 3)).scheduled = []
      ∧ (handleSent 2 (LimboState.ofBuffer [pnOf 1, pnOf 2]) (pnOf 3)).blocked = true := by
  decide

/-- C15, amended: in a state whose buffer holds fewer notifications than the
capacity of the channel, the sent handler puts the notification at the back of
the buffer; with the flag up it schedules exactly one synthetic response, with
Status 0 and the identifier of the notification, and lowers the flag; with the
flag down it schedules nothing and leaves the flag down. -/
theorem sent_appends_and_schedules (sentBufferSize : Nat) (st : LimboState)
    (n : PushNotification) (hroom : st.limbo.length < sentBufferSize) :
    (handleSent sentBufferSize st n).limbo = st.limbo ++ [n]
      ∧ (handleSent sentBufferSize st n).blocked = st.blocked
      ∧ (st.timeNextNotification = true →
          (handleSent sentBufferSize st n).scheduled = st.scheduled ++ [⟨0, n.Identifier⟩]
          ∧ (handleSent sentBufferSize st n).pending = st.pending ++ [⟨0, n.Identifier⟩]
          ∧ (handleSent sentBufferSize st n).timeNextNotification = false)
      ∧ (st.timeNextNotification = false →
          (handleSent sentBufferSize st n).scheduled = st.scheduled
          ∧ (handleSent sentBufferSize st n).pending = st.pending
          ∧ (handleSent sentBufferSize st n).timeNextNotification = false) := by
  have hfull : ¬ sentBufferSize ≤ st.limbo.length := by omega
  cases hflag : st.timeNextNotification with
  | true =>
    rw [handleSent_armed _ _ _ hfull hflag]
    exact ⟨rfl, rfl, fun _ => ⟨rfl, rfl, rfl⟩, fun h => by cases h⟩
  | false =>
    rw [handleSent_unarmed _ _ _ hfull hflag]
    exact ⟨rfl, rfl, fun h => (by cases h), fun _ => ⟨rfl, rfl, hflag⟩⟩

/-- Witness for C15, amended: notification 7 sent to the tracker in its
initial state, with room for 10. -/
theorem sent_appends_and_schedules_witness :
    (handleSent 10 LimboState.init (pnOf 7)).limbo = LimboState.init.limbo ++ [pnOf 7]
      ∧ (handleSent 10 LimboState.init (pnOf 7)).blocked = LimboState.init.blocked
      ∧ (LimboState.init.timeNextNotification = true →
          (handleSent 10 LimboState.init (pnOf 7)).scheduled
            = LimboState.init.scheduled ++ [⟨0, (pnOf 7).Identifier⟩]
          ∧ (handleSent 10 LimboState.init (pnOf 7)).pending
            = LimboState.init.pending ++ [⟨0, (pnOf 7).Identifier⟩]
          ∧ (handleSent 10 LimboState.init (pnOf 7)).timeNextNotification = false)
      ∧ (LimboState.init.timeNextNotification = false →
          (handleSent 10 LimboState.init (pnOf 7)).scheduled = LimboState.init.scheduled
          ∧ (handleSent 10 LimboState.init (pnOf 7)).pending = LimboState.init.pending
          ∧ (handleSent 10 LimboState.init (pnOf 7)).timeNextNotification = false) :=
  sent_appends_and_schedules 10 LimboState.init (pnOf 7) (by decide)

/-! ## Sender, Start and the end of the reader -/

/-- C13 (the code at the failing input): the sender takes notifications 1, 2
and 3 from the queue and publishes no sent event for any of them. -/
theorem sender_publishes_nothing :
    (sender [some (pnOf 1), some (pnOf 2), some (pnOf 3)]).taken
        = [pnOf 1, pnOf 2, pnOf 3]
      ∧ (sender [some (pnOf 1), some (pnOf 2), some (pnOf 3)]).sent = [] := by
  decide

/-- C14 (the code at the failing input): Start launches the sender and the
reader and returns nil, and launches no limbo goroutine, whatever channels it
would be handed. -/
theorem start_does_not_launch_limbo :
    Start.launched = [Goroutine.sender Chan.queue Chan.sent, Goroutine.reader Chan.responses]
      ∧ Start.err = none
      ∧ ∀ a b c d, Goroutine.limbo a b c d ∉ Start.launched := by
  refine ⟨rfl, rfl, ?_⟩
  intro a b c d h
  simp [Start] at h

/-- C17 (the code at the failing input): after one frame, a read error makes
the reader publish nothing more, close the connection and return, with the
Response published before unaffected; the responses channel is not closed. -/
theorem reader_error_leaves_responses_open :
    (reader [ReadResult.data [8, 8, 0, 0, 0, 2], ReadResult.err]).responses = [⟨8, 2⟩]
      ∧ (reader [ReadResult.data [8, 8, 0, 0, 0, 2], ReadResult.err]).connClosed = true
      ∧ (reader [ReadResult.data [8, 8, 0, 0, 0, 2], ReadResult.err]).returned = true
      ∧ (reader [ReadResult.data [8, 8, 0, 0, 0, 2], ReadResult.err]).responsesClosed
          = false := by
  decide

/-! ## A frame with status byte 0 -/

/-- The Response the sent handler schedules is the one of lines 106-107. -/
theorem handleSent_schedules_timeoutResponse (sentBufferSize : Nat) (st : LimboState)
    (pn : PushNotification) (h : ¬ sentBufferSize ≤ st.limbo.length)
    (hflag : st.timeNextNotification = true) :
    (handleSent sentBufferSize st pn).scheduled
      = st.scheduled ++ [timeoutResponse pn.Identifier] := by
  rw [handleSent_armed _ _ _ h hflag]
  rfl

/-- C19: the Response the reader decodes from a 6-byte frame whose status byte
is 0 is the synthetic timeout Response for the identifier of the frame, and
the handler treats it so on every buffer: it calls Enqueue for nothing, sends
nothing on the errors channel and, when the buffer holds a notification with
that identifier, takes out the front of the buffer through the first such
notification and returns. -/
theorem status_zero_frame_is_timeout (st : LimboState) (b0 b2 b3 b4 b5 : Nat)
    (h2 : b2 < 256) (h3 : b3 < 256) (h4 : b4 < 256) (h5 : b5 < 256) :
    decodeResponse [b0, 0, b2, b3, b4, b5]
        = timeoutResponse (b2 * 2 ^ 24 + b3 * 2 ^ 16 + b4 * 2 ^ 8 + b5)
      ∧ handleResponse st (decodeResponse [b0, 0, b2, b3, b4, b5])
        = handleResponse st (timeoutResponse (b2 * 2 ^ 24 + b3 * 2 ^ 16 + b4 * 2 ^ 8 + b5))
      ∧ (handleResponse st (decodeResponse [b0, 0, b2, b3, b4, b5])).enqueued = st.enqueued
      ∧ (handleResponse st (decodeResponse [b0, 0, b2, b3, b4, b5])).errors = st.errors
      ∧ (∀ pre x post, st.limbo = pre ++ x :: post →
          (∀ pn ∈ pre, pn.Identifier ≠ b2 * 2 ^ 24 + b3 * 2 ^ 16 + b4 * 2 ^ 8 + b5) →
          x.Identifier = b2 * 2 ^ 24 + b3 * 2 ^ 16 + b4 * 2 ^ 8 + b5 →
          (handleResponse st (decodeResponse [b0, 0, b2, b3, b4, b5])).limbo = post
          ∧ (handleResponse st (decodeResponse [b0, 0, b2, b3, b4, b5])).blocked = false) := by
  have hid := bigEndianUint32_bytes b2 b3 b4 b5 h2 h3 h4 h5
  have hdec : decodeResponse [b0, 0, b2, b3, b4, b5]
      = timeoutResponse (b2 * 2 ^ 24 + b3 * 2 ^ 16 + b4 * 2 ^ 8 + b5) := by
    simp only [decodeResponse, timeoutResponse, newResponse, List.drop_succ_cons,
      List.drop_zero, List.take_succ_cons, List.take_zero, List.getD_cons_succ,
      List.getD_cons_zero, hid, Nat.zero_mod]
  have hzero : (timeoutResponse (b2 * 2 ^ 24 + b3 * 2 ^ 16 + b4 * 2 ^ 8 + b5)).Status = 0 := rfl
  rw [hdec]
  refine ⟨rfl, rfl, ?_, handleResponse_errors _ _, ?_⟩
  · rw [handleResponse_zero _ _ hzero]
  · intro pre x post hl hpre hx
    rw [handleResponse_zero _ _ hzero]
    have hscan := dropUntil_split
      (timeoutResponse (b2 * 2 ^ 24 + b3 * 2 ^ 16 + b4 * 2 ^ 8 + b5)).Identifier
      pre post x hpre hx
    rw [← hl] at hscan
    simp only [hscan, and_self]

/-- Witness for C19: the frame 8,0,0,0,0,3 on the buffer 1..5 leaves 4,5. -/
theorem status_zero_frame_is_timeout_witness :
    (decodeResponse [8, 0, 0, 0, 0, 3]
        = timeoutResponse (0 * 2 ^ 24 + 0 * 2 ^ 16 + 0 * 2 ^ 8 + 3)
      ∧ handleResponse (LimboState.ofBuffer [pnOf 1, pnOf 2, pnOf 3, pnOf 4, pnOf 5])
          (decodeResponse [8, 0, 0, 0, 0, 3])
        = handleResponse (LimboState.ofBuffer [pnOf 1, pnOf 2, pnOf 3, pnOf 4, pnOf 5])
          (timeoutResponse (0 * 2 ^ 24 + 0 * 2 ^ 16 + 0 * 2 ^ 8 + 3))
      ∧ (handleResponse (LimboState.ofBuffer [pnOf 1, pnOf 2, pnOf 3, pnOf 4, pnOf 5])
          (decodeResponse [8, 0, 0, 0, 0, 3])).enqueued = []
      ∧ (handleResponse (LimboState.ofBuffer [pnOf 1, pnOf 2, pnOf 3, pnOf 4, pnOf 5])
          (decodeResponse [8, 0, 0, 0, 0, 3])).errors = []
      ∧ (∀ pre x post, [pnOf 1, pnOf 2, pnOf 3, pnOf 4, pnOf 5] = pre ++ x :: post →
          (∀ pn ∈ pre, pn.Identifier ≠ 0 * 2 ^ 24 + 0 * 2 ^ 16 + 0 * 2 ^ 8 + 3) →
          x.Identifier = 0 * 2 ^ 24 + 0 * 2 ^ 16 + 0 * 2 ^ 8 + 3 →
          (handleResponse (LimboState.ofBuffer [pnOf 1, pnOf 2, pnOf 3, pnOf 4, pnOf 5])
            (decodeResponse [8, 0, 0, 0, 0, 3])).limbo = post
          ∧ (handleResponse (LimboState.ofBuffer [pnOf 1, pnOf 2, pnOf 3, pnOf 4, pnOf 5])
            (decodeResponse [8, 0, 0, 0, 0, 3])).blocked = false))
    ∧ (handleResponse (LimboState.ofBuffer [pnOf 1, pnOf 2, pnOf 3, pnOf 4, pnOf 5])
          (decodeResponse [8, 0, 0, 0, 0, 3])).limbo = [pnOf 4, pnOf 5] :=
  ⟨status_zero_frame_is_timeout
      (LimboState.ofBuffer [pnOf 1, pnOf 2, pnOf 3, pnOf 4, pnOf 5]) 8 0 0 0 3
      (by decide) (by decide) (by decide) (by decide),
    by decide⟩

/-! ## Re-enqueueing through the range variable -/

theorem requeueRun_tracker_turns (resp : Response) (n : Nat) (c : Requeueing) :
    (List.replicate n Turn.tracker).foldl (requeueTurn resp) c
      = { c with loop := (requeueIter resp)^[n] c.loop } := by
  induction n generalizing c with
  | zero => rfl
  | succ n ih =>
    rw [List.replicate_succ, List.foldl_cons, ih, Function.iterate_succ_apply]
    rfl

/-- The tracker's turns of a run, taken alone, are the loop of the handler. -/
theorem requeueRun_tracker (resp : Response) (limbo : List PushNotification) :
    (requeueRun resp limbo (List.replicate (limbo.length + 1) Turn.tracker)).loop
      = requeueLoop resp (RequeueState.start limbo) := by
  rw [requeueRun, requeueRun_tracker_turns]
  rfl

/-- For a response with a non-zero status the handler goes through the whole
buffer and is left waiting on it. -/
theorem handleResponse_frame_waits (st : LimboState) (r : Response) (h0 : r.Status ≠ 0) :
    (handleResponse st r).limbo = [] ∧ (handleResponse st r).blocked = true := by
  have h := requeueLoop_drains r st.limbo (RequeueState.start st.limbo) rfl
  simp [handleResponse, h0, h.1, h.2]

/-- C2 (the code at the failing input): with 1..6 in flight, the frame with
status 8 and identifier 1 makes the handler call Enqueue five times, each time
with the address of the range variable of its loop.  When the five goroutines
run after the loop has gone through the buffer, each reads notification 6
there: the queue receives 6 five times, and 2, 3, 4 and 5 are lost.  The
claim expects 2, 3, 4, 5, 6, once each.  The queue gets those only if every
goroutine runs before the loop receives again. -/
theorem requeued_tail_read_through_range_variable :
    (handleResponse (LimboState.ofBuffer [pnOf 1, pnOf 2, pnOf 3, pnOf 4, pnOf 5, pnOf 6])
        ⟨8, 1⟩).enqueued
        = [Ptr.rangeVar, Ptr.rangeVar, Ptr.rangeVar, Ptr.rangeVar, Ptr.rangeVar]
      ∧ (requeueRun ⟨8, 1⟩ [pnOf 1, pnOf 2, pnOf 3, pnOf 4, pnOf 5, pnOf 6]
          (afterLoop 6 5)).loop
        = requeueLoop ⟨8, 1⟩
          (RequeueState.start [pnOf 1, pnOf 2, pnOf 3, pnOf 4, pnOf 5, pnOf 6])
      ∧ (requeueRun ⟨8, 1⟩ [pnOf 1, pnOf 2, pnOf 3, pnOf 4, pnOf 5, pnOf 6]
          (afterLoop 6 5)).loop.pn = some (pnOf 6)
      ∧ (requeueRun ⟨8, 1⟩ [pnOf 1, pnOf 2, pnOf 3, pnOf 4, pnOf 5, pnOf 6]
          (afterLoop 6 5)).queue = [pnOf 6, pnOf 6, pnOf 6, pnOf 6, pnOf 6]
      ∧ (requeueRun ⟨8, 1⟩ [pnOf 1, pnOf 2, pnOf 3, pnOf 4, pnOf 5, pnOf 6]
          (atOnce 6)).queue = [pnOf 2, pnOf 3, pnOf 4, pnOf 5, pnOf 6] := by
  decide

/-- C8 (the code at the failing input): with 1,2,3,4 in flight, the frame with
status 10 and identifier 2 makes the handler send nothing on the errors
channel and call Enqueue twice with the address of the range variable.  When
the two goroutines run after the loop has gone through the buffer, the queue
receives 4 twice and 3 is lost.  The claim expects 3 and 4 re-enqueued. -/
theorem accepted_frame_requeues_last_twice :
    (handleResponse (LimboState.ofBuffer [pnOf 1, pnOf 2, pnOf 3, pnOf 4]) ⟨10, 2⟩).errors = []
      ∧ (handleResponse (LimboState.ofBuffer [pnOf 1, pnOf 2, pnOf 3, pnOf 4])
          ⟨10, 2⟩).enqueued = [Ptr.rangeVar, Ptr.rangeVar]
      ∧ (requeueRun ⟨10, 2⟩ [pnOf 1, pnOf 2, pnOf 3, pnOf 4] (afterLoop 4 2)).loop
        = requeueLoop ⟨10, 2⟩ (RequeueState.start [pnOf 1, pnOf 2, pnOf 3, pnOf 4])
      ∧ (requeueRun ⟨10, 2⟩ [pnOf 1, pnOf 2, pnOf 3, pnOf 4] (afterLoop 4 2)).queue
        = [pnOf 4, pnOf 4] := by
  decide

/-- C18 (the code at the failing input): with 1,2,3,2,4 in flight, the frame
with status 8 and identifier 2 makes the handler call Enqueue at 3 and at 4,
with the address of the range variable; when the two goroutines run after the
loop has gone through the buffer the queue receives 4 twice and 3 is lost.
With 1,2,3 and a second notification with identifier 2 in flight, the one
call, made at 3, puts that second notification on the queue, although it
carries the identifier of the response.  The claim expects 3 and 4 in the
first case and 3 in the second. -/
theorem duplicate_identifier_tail_read_through_range_variable :
    (handleResponse (LimboState.ofBuffer [pnOf 1, pnOf 2, pnOf 3, pnOf 2, pnOf 4])
        ⟨8, 2⟩).enqueued = [Ptr.rangeVar, Ptr.rangeVar]
      ∧ (requeueRun ⟨8, 2⟩ [pnOf 1, pnOf 2, pnOf 3, pnOf 2, pnOf 4] (afterLoop 5 2)).loop
        = requeueLoop ⟨8, 2⟩ (RequeueState.start [pnOf 1, pnOf 2, pnOf 3, pnOf 2, pnOf 4])
      ∧ (requeueRun ⟨8, 2⟩ [pnOf 1, pnOf 2, pnOf 3, pnOf 2, pnOf 4] (afterLoop 5 2)).queue
        = [pnOf 4, pnOf 4]
      ∧ (handleResponse (LimboState.ofBuffer [pnOf 1, pnOf 2, pnOf 3, ⟨2, [7], []⟩])
        ⟨8, 2⟩).enqueued = [Ptr.rangeVar]
      ∧ (requeueRun ⟨8, 2⟩ [pnOf 1, pnOf 2, pnOf 3, ⟨2, [7], []⟩] (afterLoop 4 1)).queue
        = [⟨2, [7], []⟩] := by
  decide

/-- C16 (the code at the failing input): with 1,2,3 in flight, the frame with
status 8 and identifier 2 makes the loop of the handler receive all three
notifications and then wait on the empty channel: the handler does not finish,
and the sent events and the tick that follow are never handled (4 and 5 never
reach the buffer).  The claim speaks of the buffer after the handler has
processed the response. -/
theorem frame_handler_never_finishes :
    (handleResponse (LimboState.ofBuffer [pnOf 1, pnOf 2, pnOf 3]) ⟨8, 2⟩).blocked = true
      ∧ (handleResponse (LimboState.ofBuffer [pnOf 1, pnOf 2, pnOf 3]) ⟨8, 2⟩).limbo = []
      ∧ run 10 (LimboState.ofBuffer [pnOf 1, pnOf 2, pnOf 3])
          [Event.response ⟨8, 2⟩, Event.sent (pnOf 4), Event.tick, Event.sent (pnOf 5)]
        = handleResponse (LimboState.ofBuffer [pnOf 1, pnOf 2, pnOf 3]) ⟨8, 2⟩
      ∧ (run 10 (LimboState.ofBuffer [pnOf 1, pnOf 2, pnOf 3])
          [Event.sent (pnOf 4), Event.tick, Event.sent (pnOf 5)]).limbo
        = [pnOf 1, pnOf 2, pnOf 3, pnOf 4, pnOf 5] := by
  decide

end Apns
